import Mathlib

/-!
Verification development for the ADS Telegram ad-forwarding bot.

Each Python function referenced by the specification claims is shallowly
embedded as an executable Lean definition over explicit data:

* strings are `List Char`, with Python's `strip`/`split`/`replace`/
  `isalnum`/`startswith` re-implemented for the ASCII inputs the bot
  handles (`pyStrip`, `splitFirst`, `pyTakeUntilChar`, `pyIsAlnum`, ...);
* SQLite tables are lists of records, one structure per table of the
  schema in `database.py`, and each data-access method becomes a state
  transformer on those lists;
* the wall-clock / platform effects (the rotation draw, membership
  lookups, callback side effects) become explicit parameters, oracle
  functions, or effect traces.
-/

/-! ## Python string primitives (ASCII fragment used by `utils.py`) -/

/-- Python `str.strip()` whitespace set, restricted to the ASCII
whitespace characters that can occur in the bot's inputs. -/
def pyIsSpace (c : Char) : Bool :=
  c = ' ' || c = '\t' || c = '\n' || c = '\r' || c = '\x0b' || c = '\x0c'

/-- Python `s.lstrip()`. -/
def pyLStrip (l : List Char) : List Char := l.dropWhile pyIsSpace

/-- Python `s.rstrip()`. -/
def pyRStrip (l : List Char) : List Char := (l.reverse.dropWhile pyIsSpace).reverse

/-- Python `s.strip()`. -/
def pyStrip (l : List Char) : List Char := pyRStrip (pyLStrip l)

/-- Python `s.startswith(pre)`. -/
def pyStartsWith (l pre : List Char) : Bool := decide (l.take pre.length = pre)

/-- Python `sub in s` (substring containment) for a nonempty `sub`. -/
def hasSub : List Char → List Char → Bool
  | [], sub => decide (sub = [])
  | c :: rest, sub => pyStartsWith (c :: rest) sub || hasSub rest sub

/-- Split off the first occurrence of (nonempty) `sep`: returns the text
before it and the text after it, or `none` when `sep` does not occur. -/
def splitFirst : List Char → List Char → Option (List Char × List Char)
  | [], _ => none
  | c :: rest, sep =>
      if pyStartsWith (c :: rest) sep then
        some ([], (c :: rest).drop sep.length)
      else
        (splitFirst rest sep).map (fun p => (c :: p.fst, p.snd))

/-- Python `s.split(sep)[1]` for nonempty `sep`, i.e. the chunk between
the first and second occurrences of `sep` (or everything after the first
occurrence when it is the only one); `none` when `sep` does not occur,
where Python would raise `IndexError`. -/
def secondChunk (l sep : List Char) : Option (List Char) :=
  match splitFirst l sep with
  | none => none
  | some p =>
      match splitFirst p.snd sep with
      | none => some p.snd
      | some q => some q.fst

/-- Python `s.split(c)[0]` for a single-character separator. -/
def pyTakeUntilChar (c : Char) (l : List Char) : List Char :=
  l.takeWhile (fun x => x ≠ c)

/-- Python `s.isalnum()` on the ASCII fragment: nonempty and every
character a letter or digit. -/
def pyIsAlnum (l : List Char) : Bool :=
  decide (l ≠ []) && l.all (fun c => c.isAlpha || c.isDigit)

/-! ## `utils.extract_chat_id` -/

/-- The separator string `"t.me/"`. -/
def tmeSep : List Char := ['t', '.', 'm', 'e', '/']

/-- `utils.extract_chat_id`: convert `@username`, `t.me/...` link, or
numeric id to the standard format.  Mirrors the Python branch for branch:
empty input passes through, then strip; `@...` is returned as is; a
string containing `t.me/` has its path extracted
(`split('t.me/')[1].split('/')[0].split('?')[0]`), invite paths
(`+...`) returned bare and others prefixed with `@`; a `-`-prefixed
numeric id is returned as is; a string that is alphanumeric after
removing `.` and `_` gets an `@` prefix; anything else passes through.
The `t.me/` containment test guards the `secondChunk` use, so the
`getD` default is never taken. -/
def extract_chat_id (input : List Char) : List Char :=
  if input = [] then []
  else
    let s := pyStrip input
    if pyStartsWith s ['@'] then s
    else if hasSub s tmeSep then
      let path := pyTakeUntilChar '?' (pyTakeUntilChar '/' ((secondChunk s tmeSep).getD s))
      if pyStartsWith path ['+'] then path
      else '@' :: path
    else if pyStartsWith s ['-'] then s
    else if pyIsAlnum ((s.filter (fun c => c ≠ '.')).filter (fun c => c ≠ '_')) then '@' :: s
    else s

/-! ## `utils.is_valid_phone` -/

/-- Cleaning step of `utils.is_valid_phone`:
`phone.strip().replace(' ', '').replace('-', '')`. -/
def phoneClean (phone : List Char) : List Char :=
  ((pyStrip phone).filter (fun c => c ≠ ' ')).filter (fun c => c ≠ '-')

/-- The body `\+[1-9]\d{7,14}` of the phone regex matched against a
whole string: a `+`, a digit in 1–9, then 7 to 14 more digits. -/
def phoneBodyMatch : List Char → Bool
  | c :: d :: rest =>
      decide (c = '+') && decide ('1' ≤ d) && decide (d ≤ '9') &&
        rest.all Char.isDigit && decide (7 ≤ rest.length) && decide (rest.length ≤ 14)
  | _ => false

/-- Python `re.match(r'^\+[1-9]\d{7,14}$', s)` as a Boolean.  Python's
`$` anchor (without `re.MULTILINE`) matches at the end of the string
**or just before a newline at the end of the string**, so the pattern
accepts the body alone or the body followed by one trailing `'\n'`
(reachable here because the hyphen removal runs after `strip()`, e.g.
`"+12345678\n-"` cleans to `"+12345678\n"`). -/
def phoneRegexMatch (l : List Char) : Bool :=
  phoneBodyMatch l ||
    (match l.reverse with
     | c :: t => decide (c = '\n') && phoneBodyMatch t.reverse
     | [] => false)

/-- `utils.is_valid_phone`: returns `(ok, cleaned-or-reason)`. -/
def is_valid_phone (phone : List Char) : Bool × List Char :=
  if phone = [] then (false, ("Phone number required").toList)
  else
    let p := phoneClean phone
    if ¬ pyStartsWith p ['+'] then (false, ("Must start with country code (+XX)").toList)
    else if phoneRegexMatch p then (true, p)
    else (false, ("Invalid format (7-15 digits after +)").toList)

/-- The acceptance set exactly as the claim words it: after cleaning, a
leading `+` followed by 8 to 15 digits (written from the claim's words,
for comparison against the source's acceptance). -/
def claimPhonePattern (phone : List Char) : Prop :=
  ∃ ds : List Char, phoneClean phone = '+' :: ds ∧ (∀ c ∈ ds, c.isDigit) ∧
    8 ≤ ds.length ∧ ds.length ≤ 15

instance (phone : List Char) : Decidable (claimPhonePattern phone) := by
  unfold claimPhonePattern
  refine decidable_of_iff (∃ ds ∈ [(phoneClean phone).drop 1],
    phoneClean phone = '+' :: ds ∧ (∀ c ∈ ds, c.isDigit = true) ∧
      8 ≤ ds.length ∧ ds.length ≤ 15) ⟨?_, ?_⟩
  · rintro ⟨ds, _, h⟩; exact ⟨ds, h⟩
  · rintro ⟨ds, h, hrest⟩
    exact ⟨ds, by simp [h], h, hrest⟩

/-! ## `ReferralSystem` (advanced_features.py) -/

/-- `ReferralSystem.REWARD_TIERS = {3: 7, 5: 15, 10: 30}` as an
association list in insertion order (referrals → premium days). -/
def REWARD_TIERS : List (Nat × Nat) := [(3, 7), (5, 15), (10, 30)]

/-- The `rewards` computation of `ReferralSystem.get_stats`:
`sum(days for threshold, days in REWARD_TIERS.items() if total >= threshold)`. -/
def availableRewards (total : Nat) : Nat :=
  ((REWARD_TIERS.filter (fun td => total ≥ td.fst)).map (fun td => td.snd)).sum

/-! ## The relational schema of `database.py` as record types -/

/-- A row of the `users` table (schema in `Database.init_db`).
Timestamps are modelled as natural numbers; nullable columns as
`Option`; SQLite's 0/1 booleans as `Bool`. -/
structure UserRow where
  user_id : Nat
  username : Option String
  phone_number : Option String
  session_string : Option String
  is_premium : Bool
  subscription_expires : Option Nat
  delay_seconds : Nat
  is_active : Bool
  log_channel_id : Option Int
  joined_at : Nat
  last_ad_run : Option Nat
deriving DecidableEq, Repr

/-- A row of the `ads` table. -/
structure AdRow where
  id : Nat
  user_id : Nat
  ad_text : String
  media_type : Option String
  media_file_id : Option String
  is_active : Bool
  created_at : Nat
deriving DecidableEq, Repr

/-- A row of the `user_groups` table. -/
structure GroupRow where
  id : Nat
  user_id : Nat
  group_id : Int
  group_name : String
  added_at : Nat
deriving DecidableEq, Repr

/-- A row of the `owner_ads` table. -/
structure OwnerAdRow where
  id : Nat
  ad_text : String
  media_type : Option String
  media_file_id : Option String
  is_active : Bool
  created_at : Nat
deriving DecidableEq, Repr

/-- A row of the `forwarding_logs` table. -/
structure LogRow where
  id : Nat
  user_id : Nat
  group_id : Int
  group_name : String
  status : String
  error_message : Option String
  timestamp : Nat
deriving DecidableEq, Repr

/-- A row of the `payments` table. -/
structure PaymentRow where
  id : Nat
  user_id : Nat
  plan_type : String
  amount : Int
  payment_proof : Option String
  status : String
  created_at : Nat
  approved_at : Option Nat
deriving DecidableEq, Repr

/-- The whole store owned by `database.Database`: one list per table. -/
structure DBState where
  users : List UserRow
  user_groups : List GroupRow
  ads : List AdRow
  owner_ads : List OwnerAdRow
  forwarding_logs : List LogRow
  payments : List PaymentRow
deriving DecidableEq, Repr

/-! ## `Database.save_ad` (C1) -/

/-- The arguments of one `save_ad` call (besides the user id). -/
structure AdInput where
  ad_text : String
  media_type : Option String
  media_file_id : Option String
deriving DecidableEq, Repr

/-- The ads table together with its `AUTOINCREMENT` counter: the next
`id` SQLite will hand out on insert. -/
structure AdsState where
  nextId : Nat
  rows : List AdRow
deriving DecidableEq, Repr

/-- First statement of `Database.save_ad`:
`UPDATE ads SET is_active = 0 WHERE user_id = ?`. -/
def deactivateUserAds (u : Nat) (rows : List AdRow) : List AdRow :=
  rows.map (fun r => if r.user_id = u then { r with is_active := false } else r)

/-- The observable state between the two statements of `save_ad`
(inside the lock, before the insert). -/
def saveAdMidState (st : AdsState) (u : Nat) : AdsState :=
  { st with rows := deactivateUserAds u st.rows }

/-- `Database.save_ad`: deactivate all of the user's ads, then insert
the new row (which takes the `is_active` default 1 and a fresh id). -/
def save_ad (st : AdsState) (u : Nat) (c : AdInput) (now : Nat) : AdsState :=
  { nextId := st.nextId + 1
    rows := deactivateUserAds u st.rows ++
      [{ id := st.nextId, user_id := u, ad_text := c.ad_text,
         media_type := c.media_type, media_file_id := c.media_file_id,
         is_active := true, created_at := now }] }

/-- A sequence of `save_ad` calls for one user (each paired with the
`created_at` clock value of its insert). -/
def saveAdSeq (st : AdsState) (u : Nat) (cs : List (AdInput × Nat)) : AdsState :=
  cs.foldl (fun s c => save_ad s u c.fst c.snd) st

/-- The rows of the user's ads that are active (the rows a
`WHERE user_id = ? AND is_active = 1` query returns). -/
def activeAdsOf (u : Nat) (st : AdsState) : List AdRow :=
  st.rows.filter (fun r => decide (r.user_id = u) && r.is_active)

/-! ## `Database.get_free_users` (C3) and `Database.approve_payment` (C9) -/

/-- SQL `subscription_expires < CURRENT_TIMESTAMP` under SQL's
three-valued logic: a NULL column never satisfies the comparison. -/
def expiresBefore (e : Option Nat) (now : Nat) : Bool :=
  match e with
  | none => false
  | some t => t < now

/-- `Database.get_free_users`:
`SELECT * FROM users WHERE is_active = 1 AND session_string IS NOT NULL
AND (is_premium = 0 OR subscription_expires < CURRENT_TIMESTAMP)`. -/
def get_free_users (users : List UserRow) (now : Nat) : List UserRow :=
  users.filter (fun u =>
    u.is_active && u.session_string.isSome &&
      (!u.is_premium || expiresBefore u.subscription_expires now))

/-- The "free user" row predicate exactly as claim C3 words it
(written from the claim, for comparison against the source query):
active, **no stored session**, and not premium or expired. -/
def claimFreeUserPred (u : UserRow) (now : Nat) : Bool :=
  u.is_active && u.session_string.isNone &&
    (!u.is_premium || expiresBefore u.subscription_expires now)

/-- `Database.approve_payment`:
`UPDATE payments SET status = 'approved', approved_at = CURRENT_TIMESTAMP
WHERE id = ?` — the only statement of the operation. -/
def approve_payment (st : DBState) (payment_id : Nat) (now : Nat) : DBState :=
  { st with
    payments := st.payments.map (fun p =>
      if p.id = payment_id then
        { p with status := "approved", approved_at := some now }
      else p) }

/-! ## `AdminHandler._process_approval` (C2)

`admin_handlers.py` runs its own SQL against the `payments` table and a
`users` table addressed through columns `is_premium` and
`premium_expires`; its user rows are modelled with exactly the columns
its statements touch. -/

/-- A user row as addressed by `AdminHandler._process_approval`'s
`UPDATE users SET is_premium = 1, premium_expires = date('now', ?)`. -/
structure AdminUserRow where
  user_id : Nat
  is_premium : Bool
  premium_expires : Option Nat
deriving DecidableEq, Repr

/-- The tables touched by the admin approval flow. -/
structure AdminDB where
  payments : List PaymentRow
  users : List AdminUserRow
deriving DecidableEq, Repr

/-- One entry of `config.PRICING`: price, duration in days, name. -/
structure PlanInfo where
  price : Nat
  duration_days : Nat
  name : String
deriving DecidableEq, Repr

/-- `config.PRICING`. -/
def PRICING : List (String × PlanInfo) :=
  [("basic", { price := 199, duration_days := 30, name := "Basic Plan" }),
   ("pro", { price := 399, duration_days := 30, name := "Pro Plan" }),
   ("unlimited", { price := 599, duration_days := 30, name := "Unlimited Plan" })]

/-- `AdminHandler._get_plan_duration`:
`PRICING.get(plan_type, {}).get("duration_days", 30)`. -/
def get_plan_duration (plan_type : String) : Nat :=
  match PRICING.lookup plan_type with
  | some pi => pi.duration_days
  | none => 30

/-- `AdminHandler._process_approval` on the stored state: mark the
payment approved (status only), grant the paying user premium until
today + plan duration, commit; then best-effort notify the user — the
notification is a message send whose failure is only logged, so the
`notifyFails` flag reaches no table. -/
def process_approval (db : AdminDB) (payment : PaymentRow) (today : Nat)
    (_notifyFails : Bool) : AdminDB :=
  let duration := get_plan_duration payment.plan_type
  { payments := db.payments.map (fun p =>
      if p.id = payment.id then { p with status := "approved" } else p)
    users := db.users.map (fun u =>
      if u.user_id = payment.user_id then
        { u with is_premium := true, premium_expires := some (today + duration) }
      else u) }

/-! ## `AdRotationManager.get_next_ad` (C5) -/

/-- An active ad as returned by `AdRotationManager.get_user_ads`,
carrying its aggregated `success_count`. -/
structure RotAd where
  id : Nat
  success_count : Nat
deriving DecidableEq, Repr

/-- An ad's selection weight: `success_count + 1`. -/
def adWeight (a : RotAd) : Nat := a.success_count + 1

/-- `total_weight = sum(ad['success_count'] + 1 for ad in ads)`. -/
def totalWeight (ads : List RotAd) : Nat := (ads.map adWeight).sum

/-- The `for` walk of `get_next_ad`: accumulate `current += weight` and
return the first ad with `r < current`.  The draw `r` is
`loop.time() % total_weight`, a nonnegative real; it is passed in as a
rational parameter. -/
def rotWalk (r : ℚ) (current : Nat) : List RotAd → Option RotAd
  | [] => none
  | ad :: rest =>
      let cur2 := current + adWeight ad
      if r < (cur2 : ℚ) then some ad else rotWalk r cur2 rest

/-- `AdRotationManager.get_next_ad` given the fetched active-ad list and
the draw: `None` on an empty list, otherwise the walk's pick with
`ads[0]` as the fallback when the walk selects nothing. -/
def get_next_ad (ads : List RotAd) (r : ℚ) : Option RotAd :=
  match ads with
  | [] => none
  | a0 :: _ =>
      match rotWalk r 0 ads with
      | some ad => some ad
      | none => some a0

/-- Cumulative weight of the first `i` ads. -/
def cumWeight (ads : List RotAd) (i : Nat) : Nat := totalWeight (ads.take i)

/-! ## `utils.check_channel_membership` (C6) -/

/-- One possible outcome of `client.get_chat_member` as discriminated by
the `try/except` arms of `utils.check_channel_membership`. -/
inductive MemberLookup where
  | ok (status : String)
  | userNotParticipant
  | chatAdminRequired
  | peerIdInvalid
  | usernameNotOccupied
  | channelPrivate
  | floodWait (seconds : Nat)
  | otherError (msg : String)
deriving DecidableEq, Repr

/-- `valid_statuses = ("member", "administrator", "creator")`. -/
def validStatuses : List String := ["member", "administrator", "creator"]

/-- The `for attempt in range(max_retries)` loop of
`check_channel_membership`, iterating over the list of attempt indices;
`attempts i` is the platform's outcome for attempt `i`.  Returns the
boolean result and the list of sleeps performed (the FloodWait
durations and the fixed 1-second backoffs), in order.  A `return`
inside the loop stops the iteration; `continue` moves to the next
index; falling off the loop returns `False`.  An `otherError` on the
last attempt (`attempt = maxRetries - 1`) skips the backoff and falls
off the loop, as in the source. -/
def membershipRun (attempts : Nat → MemberLookup) (maxRetries : Nat) :
    List Nat → Bool × List Nat
  | [] => (false, [])
  | attempt :: restAttempts =>
      match attempts attempt with
      | .ok status => (decide (status ∈ validStatuses), [])
      | .userNotParticipant => (false, [])
      | .chatAdminRequired => (false, [])
      | .peerIdInvalid => (false, [])
      | .usernameNotOccupied => (false, [])
      | .channelPrivate => (false, [])
      | .floodWait s =>
          let r := membershipRun attempts maxRetries restAttempts
          (r.fst, s :: r.snd)
      | .otherError _ =>
          if attempt < maxRetries - 1 then
            let r := membershipRun attempts maxRetries restAttempts
            (r.fst, 1 :: r.snd)
          else (false, [])

/-- `utils.check_channel_membership` with `max_retries = 2`: never
raises; yields the boolean and the sleep trace. -/
def check_channel_membership (attempts : Nat → MemberLookup) : Bool × List Nat :=
  membershipRun attempts 2 (List.range 2)

/-- A platform behaviour that rate-limits the first lookup for 5
seconds and then reports full membership. -/
def floodAttempts : Nat → MemberLookup :=
  fun i => if i = 0 then MemberLookup.floodWait 5 else MemberLookup.ok ("member")

/-! ## `bot.py`'s `callback_handler` (C7) -/

/-- The observable side effects of one run of `bot.py`'s
`callback_handler`, in order. -/
inductive CbEff where
  | answer
  | answerText (msg : String) (alert : Bool)
  | deleteMsg
  | editText (msg : String)
  | setLoginState
  | runStart
  | showStatus
  | showHelp
  | showPlans
deriving DecidableEq, Repr

/-- Whether an effect acknowledges the callback (any `callback.answer`
variant). -/
def isAck : CbEff → Bool
  | CbEff.answer => true
  | CbEff.answerText _ _ => true
  | _ => false

/-- Number of acknowledgments in a trace. -/
def ackCount (tr : List CbEff) : Nat := (tr.filter isAck).length

/-- `bot.py`'s `callback_handler` as an effect trace over the callback
`data` string.  `joinOk` is the result of `force_join_check` on the
`check_join_` path; `raises` models the dispatched branch body raising,
which lands in the `except` arm.  Both `check_join_` branches `return`
from inside the `try`, skipping the trailing `await callback.answer()`;
every other branch falls through to it. -/
def bot_callback_handler (data : List Char) (joinOk : Bool) (raises : Bool) :
    List CbEff :=
  let tail := [CbEff.answer]
  if raises then
    CbEff.answerText "Error occurred, try /start" true :: tail
  else if pyStartsWith data (("check_join_").toList) then
    if joinOk then [CbEff.deleteMsg, CbEff.runStart]
    else [CbEff.answerText "❌ Still not joined!" true]
  else if data = ("start_login").toList then
    CbEff.editText "📱 Enter Phone Number" :: CbEff.setLoginState :: tail
  else if data = ("show_status").toList then
    CbEff.showStatus :: tail
  else if data = ("show_help").toList then
    CbEff.showHelp :: tail
  else if data = ("view_plans").toList then
    CbEff.showPlans :: tail
  else if data = ("back_home").toList then
    CbEff.deleteMsg :: CbEff.runStart :: tail
  else
    CbEff.answerText "Feature coming soon!" false :: tail

/-! ## Concrete probe data for counterexamples and witnesses -/

/-- A row satisfying `get_free_users`' actual filter (active, session
present, not premium) but not claim C3's "no stored session" reading. -/
def freeProbeUser : UserRow :=
  { user_id := 1, username := some "alice", phone_number := some "+19998887766",
    session_string := some "sess", is_premium := false,
    subscription_expires := none, delay_seconds := 300, is_active := true,
    log_channel_id := none, joined_at := 0, last_ad_run := none }

/-- A pending payment row (as created by `create_payment_request`). -/
def probePayment : PaymentRow :=
  { id := 1, user_id := 42, plan_type := "basic", amount := 199,
    payment_proof := some "proof.jpg", status := "pending",
    created_at := 0, approved_at := none }

/-- The admin-flow store holding `probePayment` and its paying user. -/
def probeAdminDB : AdminDB :=
  { payments := [probePayment],
    users := [{ user_id := 42, is_premium := false, premium_expires := none }] }

/-- A one-payment full store for the persistence-layer approval. -/
def probeDB : DBState :=
  { users := [freeProbeUser], user_groups := [], ads := [], owner_ads := [],
    forwarding_logs := [], payments := [probePayment] }

/-! # Theorems -/

/-! ## C4 — referral reward accumulation -/

/-- C4 counterexample: the claim says a referrer with exactly 5 total
referrals has 15 available reward days, but `get_stats` sums **every**
met tier, so 5 referrals yield 7 + 15 = 22. -/
theorem C4_counterexample : availableRewards 5 = 22 ∧ ¬ availableRewards 5 = 15 := by
  decide

/-- C4 (amended): the available-rewards figure is the sum of the tier
rewards over every threshold met — 3 referrals give 7, 5 give 7+15=22,
10 give 7+15+30=52, and in general each met threshold contributes its
tier's days. -/
theorem C4_referral_rewards_cumulative :
    availableRewards 3 = 7 ∧ availableRewards 5 = 22 ∧ availableRewards 10 = 52 ∧
    ∀ n : Nat, availableRewards n =
      (if 3 ≤ n then 7 else 0) + (if 5 ≤ n then 15 else 0) + (if 10 ≤ n then 30 else 0) := by
  refine ⟨by decide, by decide, by decide, fun n => ?_⟩
  unfold availableRewards REWARD_TIERS
  by_cases h3 : 3 ≤ n <;> by_cases h5 : 5 ≤ n <;> by_cases h10 : 10 ≤ n <;>
    simp [List.filter_cons, h3, h5, h10, ge_iff_le]

/-! ## C3 — `get_free_users` -/

/-- C3 counterexample: `get_free_users` returns a row with a **stored**
session (`session_string IS NOT NULL`), which the claim's
characterization ("no stored session") excludes. -/
theorem C3_counterexample :
    get_free_users [freeProbeUser] 100 = [freeProbeUser] ∧
    claimFreeUserPred freeProbeUser 100 = false := by
  decide

/-- C3 (amended): `get_free_users` returns exactly the user rows with
`is_active` true, a **present** `session_string`, and (`is_premium`
false or `subscription_expires` earlier than the current time), and no
other rows. -/
theorem C3_free_users_characterization (users : List UserRow) (now : Nat) (u : UserRow) :
    u ∈ get_free_users users now ↔
      u ∈ users ∧ u.is_active = true ∧ u.session_string.isSome = true ∧
        (u.is_premium = false ∨ expiresBefore u.subscription_expires now = true) := by
  unfold get_free_users
  simp only [List.mem_filter, Bool.and_eq_true, Bool.or_eq_true, Bool.not_eq_true']
  tauto

/-! ## C7 — callback acknowledgment -/

/-- C7: the claim (and the spec's "no command should ever leave a
callback unacknowledged") fails on `bot.py`'s `callback_handler`: on a
`check_join_…` callback whose membership re-check succeeds, the handler
deletes the prompt, re-runs `/start` and `return`s from inside the
`try`, skipping the trailing `callback.answer()` — the trace contains
no acknowledgment at all. -/
theorem C7_check_join_success_path_unacknowledged :
    bot_callback_handler (("check_join_1").toList) true false
        = [CbEff.deleteMsg, CbEff.runStart] ∧
    ackCount (bot_callback_handler (("check_join_1").toList) true false) = 0 := by
  decide

/-! ## C2 — payment approval -/

/-- C2 counterexample: the live approval flow
(`AdminHandler._process_approval`) updates only `status` on the payment
row; after approving the pending probe payment its `approved_at` is
still NULL — no approval timestamp is stamped, contrary to the claim. -/
theorem C2_counterexample :
    (process_approval probeAdminDB probePayment 100 false).payments.map PaymentRow.status
        = [("approved")] ∧
    (process_approval probeAdminDB probePayment 100 false).payments.map PaymentRow.approved_at
        = [none] := by
  decide

/-- C2 (amended): `_process_approval` sets the payment's status to
`approved` (leaving every other field of the row, `approved_at`
included, unchanged), leaves payments with other ids untouched, grants
the paying user premium until today + the plan's configured duration
(`duration_days` from the pricing table, 30 when the plan_type is not
in it), and a notification failure changes nothing — the resulting
state is identical whether or not the notify step fails. -/
theorem C2_approval_amended (db : AdminDB) (payment : PaymentRow) (today : Nat)
    (nf : Bool) :
    (∀ p ∈ db.payments, p.id = payment.id →
       { p with status := ("approved") } ∈ (process_approval db payment today nf).payments) ∧
    (∀ p ∈ db.payments, p.id ≠ payment.id →
       p ∈ (process_approval db payment today nf).payments) ∧
    (∀ u ∈ db.users, u.user_id = payment.user_id →
       { u with is_premium := true,
                premium_expires := some (today + get_plan_duration payment.plan_type) }
         ∈ (process_approval db payment today nf).users) ∧
    (∀ pt : String, PRICING.lookup pt = none → get_plan_duration pt = 30) ∧
    process_approval db payment today true = process_approval db payment today false := by
  refine ⟨?_, ?_, ?_, ?_, rfl⟩
  · intro p hp hid
    have h := List.mem_map_of_mem
      (fun q => if q.id = payment.id then { q with status := ("approved") } else q) hp
    simpa [process_approval, hid] using h
  · intro p hp hid
    have h := List.mem_map_of_mem
      (fun q => if q.id = payment.id then { q with status := ("approved") } else q) hp
    simpa [process_approval, hid] using h
  · intro u hu hid
    have h := List.mem_map_of_mem
      (fun v => if v.user_id = payment.user_id then
        { v with is_premium := true,
                 premium_expires := some (today + get_plan_duration payment.plan_type) }
        else v) hu
    simpa [process_approval, hid] using h
  · intro pt hpt
    unfold get_plan_duration
    rw [hpt]

/-- C2 witness: the amended theorem applied to the concrete probe
store: the probe payment comes out approved, the paying user 42 gets
premium until day 100 + 30, and an unknown plan falls back to 30 days. -/
theorem C2_approval_witness :
    { probePayment with status := ("approved") }
        ∈ (process_approval probeAdminDB probePayment 100 false).payments ∧
    ({ user_id := 42, is_premium := true, premium_expires := some 130 } : AdminUserRow)
        ∈ (process_approval probeAdminDB probePayment 100 false).users ∧
    get_plan_duration ("mystery") = 30 := by
  refine ⟨?_, ?_, ?_⟩
  · exact (C2_approval_amended probeAdminDB probePayment 100 false).1 probePayment
      (by decide) rfl
  · exact (C2_approval_amended probeAdminDB probePayment 100 false).2.2.1
      { user_id := 42, is_premium := false, premium_expires := none } (by decide) rfl
  · exact (C2_approval_amended probeAdminDB probePayment 100 false).2.2.2.1
      ("mystery") (by decide)

/-! ## C9 — frame property of `Database.approve_payment` -/

/-- C9: `Database.approve_payment` only rewrites the payments row with
the given id (status to `approved`, `approved_at` to now, all other
fields kept) and leaves the users table — hence `is_premium` and
`subscription_expires` of every user — and every other table unchanged;
no premium grant happens here. -/
theorem C9_approve_payment_frame (st : DBState) (payment_id now : Nat) :
    (approve_payment st payment_id now).users = st.users ∧
    (approve_payment st payment_id now).user_groups = st.user_groups ∧
    (approve_payment st payment_id now).ads = st.ads ∧
    (approve_payment st payment_id now).owner_ads = st.owner_ads ∧
    (approve_payment st payment_id now).forwarding_logs = st.forwarding_logs ∧
    (approve_payment st payment_id now).payments.length = st.payments.length ∧
    (∀ p ∈ st.payments, p.id ≠ payment_id →
       p ∈ (approve_payment st payment_id now).payments) ∧
    (∀ p ∈ st.payments, p.id = payment_id →
       { p with status := ("approved"), approved_at := some now }
         ∈ (approve_payment st payment_id now).payments) := by
  refine ⟨rfl, rfl, rfl, rfl, rfl, List.length_map _ _, ?_, ?_⟩
  · intro p hp hid
    have h := List.mem_map_of_mem
      (fun q => if q.id = payment_id then
        { q with status := ("approved"), approved_at := some now } else q) hp
    simpa [approve_payment, hid] using h
  · intro p hp hid
    have h := List.mem_map_of_mem
      (fun q => if q.id = payment_id then
        { q with status := ("approved"), approved_at := some now } else q) hp
    simpa [approve_payment, hid] using h

/-- C9 witness: applying the frame theorem to the concrete one-payment
store: the users table is untouched and the approved probe payment (with
its fresh timestamp) is present. -/
theorem C9_approve_payment_witness :
    (approve_payment probeDB 1 77).users = probeDB.users ∧
    { probePayment with status := ("approved"), approved_at := some 77 }
        ∈ (approve_payment probeDB 1 77).payments := by
  refine ⟨(C9_approve_payment_frame probeDB 1 77).1, ?_⟩
  exact (C9_approve_payment_frame probeDB 1 77).2.2.2.2.2.2.2 probePayment (by decide) rfl

/-! ## C8 — phone validation -/

/-- `pyStartsWith` against a singleton is a head test. -/
theorem pyStartsWith_cons_one (a b : Char) (t : List Char) :
    pyStartsWith (a :: t) [b] = decide (a = b) := by
  simp [pyStartsWith]

/-- Characterization of the regex body `\\+[1-9]\\d{7,14}` as a full
match. -/
theorem phoneBodyMatch_iff (l : List Char) :
    phoneBodyMatch l = true ↔
      ∃ d ds, l = '+' :: d :: ds ∧ '1' ≤ d ∧ d ≤ '9' ∧
        (∀ c ∈ ds, c.isDigit = true) ∧ 7 ≤ ds.length ∧ ds.length ≤ 14 := by
  cases l with
  | nil => simp [phoneBodyMatch]
  | cons c t =>
    cases t with
    | nil => simp [phoneBodyMatch]
    | cons d rest =>
      simp only [phoneBodyMatch, Bool.and_eq_true, decide_eq_true_eq,
        List.all_eq_true]
      constructor
      · rintro ⟨⟨⟨⟨⟨hc, h1⟩, h9⟩, hdig⟩, h7⟩, h14⟩
        exact ⟨d, rest, by rw [hc], h1, h9, hdig, h7, h14⟩
      · rintro ⟨d', ds, heq, h1, h9, hdig, h7, h14⟩
        injection heq with hc hrest
        injection hrest with hd hds
        subst hc; subst hd; subst hds
        exact ⟨⟨⟨⟨⟨rfl, h1⟩, h9⟩, hdig⟩, h7⟩, h14⟩

/-- Characterization of `re.match(r'^\\+[1-9]\\d{7,14}$', ·)`: the body
matches the whole string, or the whole string minus a single trailing
newline (Python's `$`). -/
theorem phoneRegexMatch_iff (l : List Char) :
    phoneRegexMatch l = true ↔
      ∃ d ds, (l = '+' :: d :: ds ∨ l = ('+' :: d :: ds) ++ ['\n']) ∧
        '1' ≤ d ∧ d ≤ '9' ∧ (∀ c ∈ ds, c.isDigit = true) ∧
        7 ≤ ds.length ∧ ds.length ≤ 14 := by
  unfold phoneRegexMatch
  rw [Bool.or_eq_true]
  constructor
  · rintro (hb | hn)
    · obtain ⟨d, ds, heq, hrest⟩ := (phoneBodyMatch_iff l).mp hb
      exact ⟨d, ds, Or.inl heq, hrest⟩
    · cases hr : l.reverse with
      | nil =>
          rw [hr] at hn
          exact absurd (show (false : Bool) = true from hn) (by decide)
      | cons c t =>
          rw [hr] at hn
          have hn2 : (decide (c = '\n') && phoneBodyMatch t.reverse) = true := hn
          obtain ⟨hc2, hb⟩ : c = '\n' ∧ phoneBodyMatch t.reverse = true := by
            simpa using hn2
          obtain ⟨d, ds, heq, hrest⟩ := (phoneBodyMatch_iff _).mp hb
          refine ⟨d, ds, Or.inr ?_, hrest⟩
          have hl : l = t.reverse ++ [c] := by
            have h2 := congrArg List.reverse hr
            simpa using h2
          rw [hl, heq, hc2]
  · rintro ⟨d, ds, heq | heq, hrest⟩
    · exact Or.inl ((phoneBodyMatch_iff l).mpr ⟨d, ds, heq, hrest⟩)
    · right
      have hr : l.reverse = '\n' :: ('+' :: d :: ds).reverse := by
        rw [heq]
        simp
      rw [hr]
      have hb : phoneBodyMatch (('+' :: d :: ds).reverse).reverse = true := by
        rw [List.reverse_reverse]
        exact (phoneBodyMatch_iff _).mpr ⟨d, ds, rfl, hrest⟩
      show (decide ('\n' = '\n') && phoneBodyMatch (('+' :: d :: ds).reverse).reverse) = true
      rw [hb]
      simp

/-- C8 counterexample: `"+01234567"` is a `+` followed by 8 digits, so
the claim's acceptance set contains it, but the source regex requires
the first digit to be in `[1-9]` and rejects it. -/
theorem C8_counterexample :
    claimPhonePattern (("+01234567").toList) ∧
    (is_valid_phone (("+01234567").toList)).fst = false := by
  constructor
  · decide
  · decide

/-- C8 (amended): after trimming and removing spaces and hyphens,
`is_valid_phone` accepts exactly the strings whose cleaned form is a
leading `+` followed by 8 to 15 digits **the first of which is
nonzero** (`[1-9]` then 7–14 more digits), **optionally followed by a
single trailing newline** (Python's `$` matches before a trailing
`'\n'`, which survives cleaning because the hyphen removal runs after
`strip()`), returning the cleaned string on acceptance. -/
theorem C8_phone_validation (phone : List Char) :
    ((is_valid_phone phone).fst = true ↔
      ∃ d ds, (phoneClean phone = '+' :: d :: ds ∨
          phoneClean phone = ('+' :: d :: ds) ++ ['\n']) ∧
        '1' ≤ d ∧ d ≤ '9' ∧ (∀ c ∈ ds, c.isDigit = true) ∧
        7 ≤ ds.length ∧ ds.length ≤ 14) ∧
    ((is_valid_phone phone).fst = true → (is_valid_phone phone).snd = phoneClean phone) := by
  by_cases h0 : phone = []
  · subst h0
    refine ⟨iff_of_false (by decide) ?_, fun h => absurd h (by decide)⟩
    rintro ⟨d, ds, heq | heq, -⟩ <;>
      simp [phoneClean, pyStrip, pyLStrip, pyRStrip] at heq
  · have hval : is_valid_phone phone =
        (if ¬ pyStartsWith (phoneClean phone) ['+'] then
          (false, ("Must start with country code (+XX)").toList)
        else if phoneRegexMatch (phoneClean phone) then (true, phoneClean phone)
        else (false, ("Invalid format (7-15 digits after +)").toList)) := by
      simp only [is_valid_phone]
      rw [if_neg h0]
    rw [hval]
    by_cases hplus : pyStartsWith (phoneClean phone) ['+'] = true
    · rw [if_neg (not_not_intro hplus)]
      by_cases hm : phoneRegexMatch (phoneClean phone) = true
      · rw [if_pos hm]
        exact ⟨iff_of_true rfl ((phoneRegexMatch_iff _).mp hm), fun _ => rfl⟩
      · rw [if_neg hm]
        refine ⟨iff_of_false (by simp) ?_, fun h => by simp at h⟩
        intro hx
        exact hm ((phoneRegexMatch_iff _).mpr hx)
    · rw [if_pos hplus]
      refine ⟨iff_of_false (by simp) ?_, fun h => by simp at h⟩
      rintro ⟨d, ds, heq | heq, -⟩
      · refine hplus ?_
        rw [heq, pyStartsWith_cons_one]
        simp
      · refine hplus ?_
        rw [heq, List.cons_append, pyStartsWith_cons_one]
        simp

/-- C8 witness: the amended theorem applied to the repository's own
test number `"+919876543210"`, accepted and echoed back cleaned, and to
`"+12345678\n-"`, whose cleaned form `"+12345678\n"` is accepted via
the trailing-newline reading of `$`. -/
theorem C8_phone_witness :
    (is_valid_phone (("+919876543210").toList)).fst = true ∧
    (is_valid_phone (("+919876543210").toList)).snd
        = phoneClean (("+919876543210").toList) ∧
    (is_valid_phone (("+12345678\n-").toList)).fst = true ∧
    (is_valid_phone (("+12345678\n-").toList)).snd
        = phoneClean (("+12345678\n-").toList) := by
  refine ⟨by decide, ?_, by decide, ?_⟩
  · exact (C8_phone_validation (("+919876543210").toList)).2 (by decide)
  · exact (C8_phone_validation (("+12345678\n-").toList)).2 (by decide)

/-! ## C5 — weighted ad rotation -/

/-- The cumulative walk of `get_next_ad`, started at accumulator
`current` with the draw strictly below the remaining total, selects the
first ad whose cumulative weight strictly exceeds the draw. -/
theorem rotWalk_spec (r : ℚ) (ads : List RotAd) :
    ∀ current : Nat, r < (((current + totalWeight ads : Nat)) : ℚ) →
      (((current : Nat)) : ℚ) ≤ r →
      ∃ i, ∃ h : i < ads.length, rotWalk r current ads = some (ads.get ⟨i, h⟩) ∧
        (((current + cumWeight ads i : Nat)) : ℚ) ≤ r ∧
        r < (((current + cumWeight ads (i + 1) : Nat)) : ℚ) := by
  induction ads with
  | nil =>
    intro current hub hlb
    exfalso
    have hz : totalWeight ([] : List RotAd) = 0 := rfl
    rw [hz, Nat.add_zero] at hub
    linarith
  | cons a rest ih =>
    intro current hub hlb
    have hwalk : rotWalk r current (a :: rest) =
        if r < (((current + adWeight a : Nat)) : ℚ) then some a
        else rotWalk r (current + adWeight a) rest := rfl
    by_cases hr : r < (((current + adWeight a : Nat)) : ℚ)
    · refine ⟨0, Nat.succ_pos _, ?_, ?_, ?_⟩
      · rw [hwalk, if_pos hr]
        rfl
      · have h00 : cumWeight (a :: rest) 0 = 0 := rfl
        rw [h00, Nat.add_zero]
        exact hlb
      · have h01 : cumWeight (a :: rest) 1 = adWeight a := by
          simp [cumWeight, totalWeight]
        rw [h01]
        exact hr
    · have hlb2 : (((current + adWeight a : Nat)) : ℚ) ≤ r := le_of_not_lt hr
      have hub2 : r < (((current + adWeight a + totalWeight rest : Nat)) : ℚ) := by
        have he : current + totalWeight (a :: rest) = current + adWeight a + totalWeight rest := by
          simp [totalWeight]
          ring
        rw [he] at hub
        exact hub
      obtain ⟨i, h, heq, hl, hr2⟩ := ih (current + adWeight a) hub2 hlb2
      refine ⟨i + 1, Nat.succ_lt_succ h, ?_, ?_, ?_⟩
      · rw [hwalk, if_neg hr]
        exact heq
      · have he : current + cumWeight (a :: rest) (i + 1) = current + adWeight a + cumWeight rest i := by
          simp [cumWeight, totalWeight, List.take_succ_cons]
          ring
        rw [he]
        exact hl
      · have he : current + cumWeight (a :: rest) (i + 1 + 1)
            = current + adWeight a + cumWeight rest (i + 1) := by
          simp [cumWeight, totalWeight, List.take_succ_cons]
          ring
        rw [he]
        exact hr2

/-- When the draw is at least the remaining total weight, the walk
selects nothing. -/
theorem rotWalk_none (r : ℚ) (ads : List RotAd) :
    ∀ current : Nat, (((current + totalWeight ads : Nat)) : ℚ) ≤ r →
      rotWalk r current ads = none := by
  induction ads with
  | nil => intro current _; rfl
  | cons a rest ih =>
    intro current hub
    have he : current + totalWeight (a :: rest) = current + adWeight a + totalWeight rest := by
      simp [totalWeight]
      ring
    rw [he] at hub
    have hge : ¬ r < (((current + adWeight a : Nat)) : ℚ) := by
      intro hcon
      have hc2 : (((current + adWeight a : Nat)) : ℚ)
          ≤ (((current + adWeight a + totalWeight rest : Nat)) : ℚ) := by
        exact_mod_cast Nat.le_add_right _ _
      linarith
    have hwalk : rotWalk r current (a :: rest) =
        if r < (((current + adWeight a : Nat)) : ℚ) then some a
        else rotWalk r (current + adWeight a) rest := rfl
    rw [hwalk, if_neg hge]
    exact ih (current + adWeight a) hub

/-- C5: for a nonempty active-ad list and a draw in `[0, total)`,
`get_next_ad` returns a member of the list — the first ad in list order
whose cumulative `success_count + 1` weight strictly exceeds the draw
(each ad's weight is nonzero, so each ad owns a nonempty slice) — and
when the draw is not below the total (walk selects nothing) it falls
back to the first ad. -/
theorem C5_weighted_rotation (ads : List RotAd) (r : ℚ) :
    (ads ≠ [] → 0 ≤ r → r < (((totalWeight ads : Nat)) : ℚ) →
      ∃ i, ∃ h : i < ads.length, get_next_ad ads r = some (ads.get ⟨i, h⟩) ∧
        ads.get ⟨i, h⟩ ∈ ads ∧
        (((cumWeight ads i : Nat)) : ℚ) ≤ r ∧ r < (((cumWeight ads (i + 1) : Nat)) : ℚ)) ∧
    (∀ a0 rest, ads = a0 :: rest → (((totalWeight ads : Nat)) : ℚ) ≤ r →
      get_next_ad ads r = some a0) := by
  constructor
  · intro hne hr0 hrt
    cases ads with
    | nil => exact absurd rfl hne
    | cons a rest =>
      obtain ⟨i, h, heq, hl, hr2⟩ :=
        rotWalk_spec r (a :: rest) 0 (by simpa using hrt) (by simpa using hr0)
      refine ⟨i, h, ?_, List.get_mem _ _ _, by simpa using hl, by simpa using hr2⟩
      simp only [get_next_ad, heq]
  · intro a0 rest hads hub
    subst hads
    have hnone := rotWalk_none r (a0 :: rest) 0 (by simpa using hub)
    simp only [get_next_ad, hnone]

/-- C5 witness: two ads with success counts 0 and 9 (weights 1 and 10,
total 11); the draw 3 falls in the second ad's slice, and a draw at the
total (11) triggers the first-ad fallback. -/
theorem C5_rotation_witness :
    (∃ i, ∃ h : i < ([⟨1, 0⟩, ⟨2, 9⟩] : List RotAd).length,
      get_next_ad [⟨1, 0⟩, ⟨2, 9⟩] 3 = some (([⟨1, 0⟩, ⟨2, 9⟩] : List RotAd).get ⟨i, h⟩) ∧
      ([⟨1, 0⟩, ⟨2, 9⟩] : List RotAd).get ⟨i, h⟩ ∈ ([⟨1, 0⟩, ⟨2, 9⟩] : List RotAd) ∧
      (((cumWeight [⟨1, 0⟩, ⟨2, 9⟩] i : Nat)) : ℚ) ≤ 3 ∧
      (3 : ℚ) < (((cumWeight [⟨1, 0⟩, ⟨2, 9⟩] (i + 1) : Nat)) : ℚ)) ∧
    get_next_ad [⟨1, 0⟩, ⟨2, 9⟩] 11 = some ⟨1, 0⟩ := by
  constructor
  · exact (C5_weighted_rotation [⟨1, 0⟩, ⟨2, 9⟩] 3).1 (by decide) (by norm_num)
      (by norm_num [totalWeight, adWeight])
  · exact (C5_weighted_rotation [⟨1, 0⟩, ⟨2, 9⟩] 11).2 ⟨1, 0⟩ [⟨2, 9⟩] rfl
      (by norm_num [totalWeight, adWeight])

/-! ## C6 — channel-membership check -/

/-- `range 2` spelt out: the loop runs attempts 0 and 1. -/
theorem check_channel_membership_eq (attempts : Nat → MemberLookup) :
    check_channel_membership attempts = membershipRun attempts 2 [0, 1] := rfl

/-- A run starting at the final attempt succeeds only on a valid
member status. -/
theorem membershipRun_single (attempts : Nat → MemberLookup)
    (h : (membershipRun attempts 2 [1]).fst = true) :
    ∃ st, attempts 1 = MemberLookup.ok st ∧ st ∈ validStatuses := by
  cases h1 : attempts 1 with
  | ok status =>
      refine ⟨status, rfl, ?_⟩
      rw [show (membershipRun attempts 2 [1]).fst = decide (status ∈ validStatuses) from by
        simp [membershipRun, h1]] at h
      simpa using h
  | userNotParticipant => simp [membershipRun, h1] at h
  | chatAdminRequired => simp [membershipRun, h1] at h
  | peerIdInvalid => simp [membershipRun, h1] at h
  | usernameNotOccupied => simp [membershipRun, h1] at h
  | channelPrivate => simp [membershipRun, h1] at h
  | floodWait s => simp [membershipRun, h1] at h
  | otherError m => simp [membershipRun, h1] at h

/-- C6: `check_channel_membership` returns `true` only when one of the
two attempted lookups yields a member status among
member/administrator/creator; every failure mode — not a participant,
missing admin rights, invalid or private channel, and unexpected errors
once the 2-attempt budget is exhausted — yields `false`; the function
is total (no error propagates), and a rate-limit signal on the first
attempt is not an immediate result: its signaled duration is slept
(first entry of the sleep trace) and the verdict is that of the retry,
as it also is after a 1-second backoff on a first-attempt unexpected
error. -/
theorem C6_membership_normalizes_failures (attempts : Nat → MemberLookup) :
    ((check_channel_membership attempts).fst = true →
      ∃ i st, i < 2 ∧ attempts i = MemberLookup.ok st ∧ st ∈ validStatuses) ∧
    (∀ s, attempts 0 = MemberLookup.floodWait s →
      (check_channel_membership attempts).snd.head? = some s ∧
      (check_channel_membership attempts).fst = (membershipRun attempts 2 [1]).fst) ∧
    (∀ m, attempts 0 = MemberLookup.otherError m →
      (check_channel_membership attempts).fst = (membershipRun attempts 2 [1]).fst) := by
  refine ⟨?_, ?_, ?_⟩
  · intro h
    rw [check_channel_membership_eq] at h
    cases h0 : attempts 0 with
    | ok status =>
        refine ⟨0, status, by norm_num, h0, ?_⟩
        rw [show (membershipRun attempts 2 [0, 1]).fst = decide (status ∈ validStatuses) from by
          simp [membershipRun, h0]] at h
        simpa using h
    | userNotParticipant => simp [membershipRun, h0] at h
    | chatAdminRequired => simp [membershipRun, h0] at h
    | peerIdInvalid => simp [membershipRun, h0] at h
    | usernameNotOccupied => simp [membershipRun, h0] at h
    | channelPrivate => simp [membershipRun, h0] at h
    | floodWait s =>
        rw [show (membershipRun attempts 2 [0, 1]).fst = (membershipRun attempts 2 [1]).fst from by
          simp [membershipRun, h0]] at h
        obtain ⟨st, h1, hv⟩ := membershipRun_single attempts h
        exact ⟨1, st, by norm_num, h1, hv⟩
    | otherError m =>
        rw [show (membershipRun attempts 2 [0, 1]).fst = (membershipRun attempts 2 [1]).fst from by
          simp [membershipRun, h0]] at h
        obtain ⟨st, h1, hv⟩ := membershipRun_single attempts h
        exact ⟨1, st, by norm_num, h1, hv⟩
  · intro s h0
    rw [check_channel_membership_eq]
    constructor
    · simp [membershipRun, h0]
    · simp [membershipRun, h0]
  · intro m h0
    rw [check_channel_membership_eq]
    simp [membershipRun, h0]

/-- C6 witness: under a platform that rate-limits the first attempt for
5 seconds and confirms membership on the retry, the check returns
`true`, the only successful lookup is attempt 1's `"member"` status,
and the 5-second wait heads the sleep trace. -/
theorem C6_membership_witness :
    (check_channel_membership floodAttempts).fst = true ∧
    (∃ i st, i < 2 ∧ floodAttempts i = MemberLookup.ok st ∧ st ∈ validStatuses) ∧
    (check_channel_membership floodAttempts).snd.head? = some 5 := by
  refine ⟨by decide, ?_, ?_⟩
  · exact (C6_membership_normalizes_failures floodAttempts).1 (by decide)
  · exact ((C6_membership_normalizes_failures floodAttempts).2.1 5 (by decide)).1

/-! ## C1 — ad exclusivity under `save_ad` -/

/-- After the deactivate step, the user has no active ads at all. -/
theorem deactivateUserAds_filter (u : Nat) (rows : List AdRow) :
    (deactivateUserAds u rows).filter (fun r => decide (r.user_id = u) && r.is_active) = [] := by
  induction rows with
  | nil => rfl
  | cons r rest ih =>
      by_cases h : r.user_id = u <;>
        simpa [deactivateUserAds, List.filter_cons, h] using ih

/-- The in-between state of `save_ad` (after the `UPDATE`, before the
`INSERT`) has zero active ads for the user. -/
theorem activeAdsOf_mid (u : Nat) (st : AdsState) :
    activeAdsOf u (saveAdMidState st u) = [] := by
  unfold activeAdsOf saveAdMidState
  exact deactivateUserAds_filter u st.rows

/-- One `save_ad` call leaves exactly the freshly inserted row active
for the user. -/
theorem activeAdsOf_save (u : Nat) (st : AdsState) (c : AdInput) (now : Nat) :
    activeAdsOf u (save_ad st u c now) =
      [{ id := st.nextId, user_id := u, ad_text := c.ad_text,
         media_type := c.media_type, media_file_id := c.media_file_id,
         is_active := true, created_at := now }] := by
  unfold activeAdsOf save_ad
  rw [List.filter_append, deactivateUserAds_filter]
  simp

/-- The autoincrement counter advances by one per call. -/
theorem saveAdSeq_nextId (u : Nat) (cs : List (AdInput × Nat)) :
    ∀ st : AdsState, (saveAdSeq st u cs).nextId = st.nextId + cs.length := by
  induction cs with
  | nil => intro st; rfl
  | cons c rest ih =>
      intro st
      rw [show saveAdSeq st u (c :: rest) = saveAdSeq (save_ad st u c.fst c.snd) u rest from rfl,
        ih]
      show (st.nextId + 1) + rest.length = st.nextId + (rest.length + 1)
      omega

/-- After a sequence of calls ending in `c`, exactly the row inserted
by `c` is active for the user. -/
theorem activeAdsOf_saveAdSeq_concat (st : AdsState) (u : Nat)
    (init : List (AdInput × Nat)) (c : AdInput × Nat) :
    activeAdsOf u (saveAdSeq st u (init ++ [c])) =
      [{ id := st.nextId + init.length, user_id := u, ad_text := c.fst.ad_text,
         media_type := c.fst.media_type, media_file_id := c.fst.media_file_id,
         is_active := true, created_at := c.snd }] := by
  rw [show saveAdSeq st u (init ++ [c]) = save_ad (saveAdSeq st u init) u c.fst c.snd from by
    simp [saveAdSeq, List.foldl_append]]
  rw [activeAdsOf_save, saveAdSeq_nextId]

/-- C1: from any starting ads table and for any nonempty sequence of
`save_ad` calls for user `u` (the sequence is `init ++ [c]`, `c` the
most recent call), exactly one of `u`'s ads is active afterwards —
namely the row inserted by `c`, carrying the last-assigned id
`nextId - 1`; after every nonempty prefix of the sequence the count of
`u`'s active ads is likewise exactly 1; and the state between the
deactivate step and the insert (the two run under one lock and commit)
has zero active ads for `u`, so at no observable point are two ads of
one user active together. -/
theorem C1_ad_exclusivity (st : AdsState) (u : Nat) (cs : List (AdInput × Nat))
    (init : List (AdInput × Nat)) (c : AdInput × Nat) (hcs : cs = init ++ [c]) :
    activeAdsOf u (saveAdSeq st u cs) =
      [{ id := st.nextId + cs.length - 1, user_id := u, ad_text := c.fst.ad_text,
         media_type := c.fst.media_type, media_file_id := c.fst.media_file_id,
         is_active := true, created_at := c.snd }] ∧
    (∀ pre suf : List (AdInput × Nat), pre ≠ [] → pre ++ suf = cs →
      (activeAdsOf u (saveAdSeq st u pre)).length = 1) ∧
    (∀ st' : AdsState, activeAdsOf u (saveAdMidState st' u) = []) := by
  subst hcs
  refine ⟨?_, ?_, fun st' => activeAdsOf_mid u st'⟩
  · rw [activeAdsOf_saveAdSeq_concat]
    have hlen : st.nextId + (init ++ [c]).length - 1 = st.nextId + init.length := by
      simp [List.length_append]
    rw [hlen]
  · intro pre suf hne _
    obtain ⟨init', c', rfl⟩ : ∃ i cl, pre = i ++ [cl] :=
      ⟨pre.dropLast, pre.getLast hne, (List.dropLast_append_getLast hne).symm⟩
    rw [activeAdsOf_saveAdSeq_concat]
    rfl

/-- C1 witness: starting from a table where user 7 already has two ads
(one stale-active), saving ads A then B leaves exactly B active, with
the fresh id 11. -/
theorem C1_ad_exclusivity_witness :
    activeAdsOf 7
      (saveAdSeq
        { nextId := 10,
          rows := [{ id := 1, user_id := 7, ad_text := "old", media_type := none,
                     media_file_id := none, is_active := true, created_at := 0 },
                   { id := 2, user_id := 8, ad_text := "other", media_type := none,
                     media_file_id := none, is_active := true, created_at := 0 }] }
        7
        [({ ad_text := "A", media_type := none, media_file_id := none }, 5),
         ({ ad_text := "B", media_type := none, media_file_id := none }, 6)]) =
      [{ id := 11, user_id := 7, ad_text := "B", media_type := none,
         media_file_id := none, is_active := true, created_at := 6 }] := by
  have h := (C1_ad_exclusivity
    { nextId := 10,
      rows := [{ id := 1, user_id := 7, ad_text := "old", media_type := none,
                 media_file_id := none, is_active := true, created_at := 0 },
               { id := 2, user_id := 8, ad_text := "other", media_type := none,
                 media_file_id := none, is_active := true, created_at := 0 }] }
    7
    [({ ad_text := "A", media_type := none, media_file_id := none }, 5),
     ({ ad_text := "B", media_type := none, media_file_id := none }, 6)]
    [({ ad_text := "A", media_type := none, media_file_id := none }, 5)]
    ({ ad_text := "B", media_type := none, media_file_id := none }, 6)
    rfl).1
  simpa using h

/-! ## C10 — idempotence of `extract_chat_id` -/

/-- A Boolean that is not `true` is `false`. -/
theorem bool_eq_false_of_not_true {b : Bool} (h : ¬ b = true) : b = false := by
  cases b
  · rfl
  · exact absurd rfl h

/-- A Boolean known `false` is not `true`. -/
theorem bool_ne_true_of_eq_false {b : Bool} (h : b = false) : ¬ b = true := by
  simp [h]

/-- One-branch unfolding of `extract_chat_id` on a nonempty input. -/
theorem extract_unfold (x : List Char) (hx : x ≠ []) :
    extract_chat_id x =
      (if pyStartsWith (pyStrip x) ['@'] then pyStrip x
       else if hasSub (pyStrip x) tmeSep then
         (if pyStartsWith (pyTakeUntilChar '?' (pyTakeUntilChar '/'
              ((secondChunk (pyStrip x) tmeSep).getD (pyStrip x)))) ['+'] then
            pyTakeUntilChar '?' (pyTakeUntilChar '/'
              ((secondChunk (pyStrip x) tmeSep).getD (pyStrip x)))
          else '@' :: pyTakeUntilChar '?' (pyTakeUntilChar '/'
              ((secondChunk (pyStrip x) tmeSep).getD (pyStrip x))))
       else if pyStartsWith (pyStrip x) ['-'] then pyStrip x
       else if pyIsAlnum (((pyStrip x).filter (fun c => c ≠ '.')).filter
           (fun c => c ≠ '_')) then '@' :: pyStrip x
       else pyStrip x) := by
  rw [extract_chat_id, if_neg hx]

/-- `pyStartsWith` against a singleton succeeds exactly on that head. -/
theorem startsWith_one_iff (l : List Char) (c : Char) :
    pyStartsWith l [c] = true ↔ ∃ t, l = c :: t := by
  cases l with
  | nil => simp [pyStartsWith]
  | cons a t =>
      rw [pyStartsWith_cons_one]
      constructor
      · intro hac
        exact ⟨t, by rw [show a = c from by simpa using hac]⟩
      · rintro ⟨t', heq⟩
        injection heq with h1 h2
        simp [h1]

/-- A substring occurrence puts every character of the needle into the
haystack. -/
theorem hasSub_mem (sub : List Char) :
    ∀ l : List Char, hasSub l sub = true → ∀ c ∈ sub, c ∈ l := by
  intro l
  induction l with
  | nil =>
      intro h c hc
      have hsub : sub = [] := by simpa [hasSub] using h
      subst hsub
      cases hc
  | cons a rest ih =>
      intro h c hc
      have h' : pyStartsWith (a :: rest) sub = true ∨ hasSub rest sub = true := by
        simpa [hasSub] using h
      rcases h' with h1 | h2
      · have htake : (a :: rest).take sub.length = sub := by simpa [pyStartsWith] using h1
        rw [← htake] at hc
        exact List.take_subset _ _ hc
      · exact List.mem_cons_of_mem a (ih h2 c hc)

/-- A string without `/` cannot contain `"t.me/"`. -/
theorem hasSub_tme_eq_false (l : List Char) (hnoslash : ∀ c ∈ l, c ≠ '/') :
    hasSub l tmeSep = false := by
  cases hsub : hasSub l tmeSep
  · rfl
  · exact absurd rfl (hnoslash '/' (hasSub_mem tmeSep l hsub '/' (by decide)))

/-- The extracted t.me path (`split('/')[0].split('?')[0]`) contains no
`/`. -/
theorem path_no_slash (b : List Char) :
    ∀ c ∈ pyTakeUntilChar '?' (pyTakeUntilChar '/' b), c ≠ '/' := by
  intro c hc
  have hc2 : c ∈ pyTakeUntilChar '/' b := (List.takeWhile_prefix _).subset hc
  have hp := List.mem_takeWhile_imp hc2
  simpa using hp

/-- Strip-fixed inputs with head `@` are fixed points. -/
theorem extract_fix_at (l t : List Char) (hl : l = '@' :: t) (hstrip : pyStrip l = l) :
    extract_chat_id l = l := by
  have hne : l ≠ [] := by rw [hl]; exact List.cons_ne_nil _ _
  have hAt : pyStartsWith l ['@'] = true := by rw [hl, pyStartsWith_cons_one]; rfl
  rw [extract_unfold l hne, hstrip, if_pos hAt]

/-- Strip-fixed, slash-free inputs with head `+` (an extracted invite
path) are fixed points. -/
theorem extract_fix_plus (l t : List Char) (hl : l = '+' :: t)
    (hnoslash : ∀ c ∈ l, c ≠ '/') (hstrip : pyStrip l = l) :
    extract_chat_id l = l := by
  have hne : l ≠ [] := by rw [hl]; exact List.cons_ne_nil _ _
  have hAt : pyStartsWith l ['@'] = false := by rw [hl, pyStartsWith_cons_one]; rfl
  have hT : hasSub l tmeSep = false := hasSub_tme_eq_false l hnoslash
  have hDash : pyStartsWith l ['-'] = false := by rw [hl, pyStartsWith_cons_one]; rfl
  have hfil : ((l.filter (fun c => c ≠ '.')).filter (fun c => c ≠ '_'))
      = '+' :: ((t.filter (fun c => c ≠ '.')).filter (fun c => c ≠ '_')) := by
    rw [hl]
    rfl
  have hAl : pyIsAlnum ((l.filter (fun c => c ≠ '.')).filter (fun c => c ≠ '_')) = false := by
    rw [hfil]
    rfl
  rw [extract_unfold l hne, hstrip, if_neg (bool_ne_true_of_eq_false hAt),
    if_neg (bool_ne_true_of_eq_false hT), if_neg (bool_ne_true_of_eq_false hDash),
    if_neg (bool_ne_true_of_eq_false hAl)]

/-- Strip-fixed inputs with head `-` and no `t.me/` are fixed points. -/
theorem extract_fix_dash (l t : List Char) (hl : l = '-' :: t)
    (hT : hasSub l tmeSep = false) (hstrip : pyStrip l = l) :
    extract_chat_id l = l := by
  have hne : l ≠ [] := by rw [hl]; exact List.cons_ne_nil _ _
  have hAt : pyStartsWith l ['@'] = false := by rw [hl, pyStartsWith_cons_one]; rfl
  have hDash : pyStartsWith l ['-'] = true := by rw [hl, pyStartsWith_cons_one]; rfl
  rw [extract_unfold l hne, hstrip, if_neg (bool_ne_true_of_eq_false hAt),
    if_neg (bool_ne_true_of_eq_false hT), if_pos hDash]

/-- Strip-fixed inputs matching no branch pass through unchanged —
twice. -/
theorem extract_fix_passthrough (l : List Char) (hstrip : pyStrip l = l)
    (hAt : pyStartsWith l ['@'] = false) (hT : hasSub l tmeSep = false)
    (hDash : pyStartsWith l ['-'] = false)
    (hAl : pyIsAlnum ((l.filter (fun c => c ≠ '.')).filter (fun c => c ≠ '_')) = false) :
    extract_chat_id l = l := by
  by_cases hne : l = []
  · subst hne; rfl
  · rw [extract_unfold l hne, hstrip, if_neg (bool_ne_true_of_eq_false hAt),
      if_neg (bool_ne_true_of_eq_false hT), if_neg (bool_ne_true_of_eq_false hDash),
      if_neg (bool_ne_true_of_eq_false hAl)]

/-- C10 counterexample: on `"t.me/a t.me/b"` the t.me branch extracts
the chunk between the two separators — `"a "`, with its trailing space
— and returns `"@a "`; re-applying the normalization strips that space
and yields `"@a"`, so `extract_chat_id` is not idempotent. -/
theorem C10_counterexample :
    extract_chat_id (("t.me/a t.me/b").toList) = ['@', 'a', ' '] ∧
    extract_chat_id (extract_chat_id (("t.me/a t.me/b").toList)) = ['@', 'a'] ∧
    extract_chat_id (extract_chat_id (("t.me/a t.me/b").toList))
      ≠ extract_chat_id (("t.me/a t.me/b").toList) := by
  refine ⟨by decide, by decide, by decide⟩

/-- C10 (amended): `extract_chat_id` is idempotent on every input whose
normalized form is already whitespace-stripped — the only escape being
a `t.me/…` input whose extracted path keeps trailing whitespace, which
the second application then strips. -/
theorem C10_extract_idempotent (x : List Char)
    (h : pyStrip (extract_chat_id x) = extract_chat_id x) :
    extract_chat_id (extract_chat_id x) = extract_chat_id x := by
  by_cases hx : x = []
  · subst hx; rfl
  · by_cases hAt : pyStartsWith (pyStrip x) ['@'] = true
    · have hfx : extract_chat_id x = pyStrip x := by
        rw [extract_unfold x hx, if_pos hAt]
      obtain ⟨t, ht⟩ := (startsWith_one_iff _ _).mp hAt
      rw [hfx] at h ⊢
      exact extract_fix_at _ t ht h
    · by_cases hT : hasSub (pyStrip x) tmeSep = true
      · have hfx0 : extract_chat_id x =
            (if pyStartsWith (pyTakeUntilChar '?' (pyTakeUntilChar '/'
                  ((secondChunk (pyStrip x) tmeSep).getD (pyStrip x)))) ['+'] then
               pyTakeUntilChar '?' (pyTakeUntilChar '/'
                  ((secondChunk (pyStrip x) tmeSep).getD (pyStrip x)))
             else '@' :: pyTakeUntilChar '?' (pyTakeUntilChar '/'
                  ((secondChunk (pyStrip x) tmeSep).getD (pyStrip x)))) := by
          rw [extract_unfold x hx, if_neg hAt, if_pos hT]
        have hnoslash := path_no_slash ((secondChunk (pyStrip x) tmeSep).getD (pyStrip x))
        by_cases hPlus : pyStartsWith (pyTakeUntilChar '?' (pyTakeUntilChar '/'
            ((secondChunk (pyStrip x) tmeSep).getD (pyStrip x)))) ['+'] = true
        · rw [if_pos hPlus] at hfx0
          obtain ⟨t, ht⟩ := (startsWith_one_iff _ _).mp hPlus
          rw [hfx0] at h ⊢
          exact extract_fix_plus _ t ht hnoslash h
        · rw [if_neg hPlus] at hfx0
          rw [hfx0] at h ⊢
          exact extract_fix_at _ _ rfl h
      · by_cases hDash : pyStartsWith (pyStrip x) ['-'] = true
        · have hfx : extract_chat_id x = pyStrip x := by
            rw [extract_unfold x hx, if_neg hAt, if_neg hT, if_pos hDash]
          obtain ⟨t, ht⟩ := (startsWith_one_iff _ _).mp hDash
          rw [hfx] at h ⊢
          exact extract_fix_dash _ t ht (bool_eq_false_of_not_true hT) h
        · by_cases hAl : pyIsAlnum (((pyStrip x).filter (fun c => c ≠ '.')).filter
              (fun c => c ≠ '_')) = true
          · have hfx : extract_chat_id x = '@' :: pyStrip x := by
              rw [extract_unfold x hx, if_neg hAt, if_neg hT, if_neg hDash, if_pos hAl]
            rw [hfx] at h ⊢
            exact extract_fix_at _ _ rfl h
          · have hfx : extract_chat_id x = pyStrip x := by
              rw [extract_unfold x hx, if_neg hAt, if_neg hT, if_neg hDash, if_neg hAl]
            rw [hfx] at h ⊢
            exact extract_fix_passthrough _ h (bool_eq_false_of_not_true hAt)
              (bool_eq_false_of_not_true hT) (bool_eq_false_of_not_true hDash)
              (bool_eq_false_of_not_true hAl)

/-- C10 witness: the amended idempotence applied to the already-clean
handle `"@chan"` (its normalization is strip-fixed). -/
theorem C10_extract_idempotent_witness :
    pyStrip (extract_chat_id (("@chan").toList)) = extract_chat_id (("@chan").toList) ∧
    extract_chat_id (extract_chat_id (("@chan").toList)) = extract_chat_id (("@chan").toList) := by
  refine ⟨by decide, ?_⟩
  exact C10_extract_idempotent (("@chan").toList) (by decide)
